import Mathlib

/-!
Shallow embedding of the JavaScript driver code of the wasm-chip8 repository
(`src/js/components/upload-button.js`): the `chip8-emulator` custom element
(render loop, framebuffer rendering, program upload), the `Keyboard` input
adapter and the `Audio` tone adapter.  The wasm interpreter itself lives in a
Rust crate that is not part of the JavaScript sources; where one of its
guarantees is needed it is modelled from the specification and marked as such.
-/

set_option maxHeartbeats 1000000

/-- The public operations of the wasm `Emulator` object as invoked by the
JavaScript driver, together with the operations the specification assigns to
the external collaborators (`decrement_timers`, `set_key`).  A value of this
type records one call made on the emulator. -/
inductive EmuCall : Type
  | tick : EmuCall
  | gfx : EmuCall
  | reset : EmuCall
  | load (rom : List Nat) : EmuCall
  | decrementTimers : EmuCall
  | setKey (index : Nat) (pressed : Bool) : EmuCall
deriving DecidableEq

/-- Digit run of a base-10 numeral: `foldl` accumulation of decimal digits,
as `parseInt(. , 10)` consumes the longest digit prefix. -/
def digitsVal (ds : List Char) : Int :=
  ds.foldl (fun a c => a * 10 + ((c.toNat : Int) - 48)) 0

/-- Body of `parseInt(s, 10)` after the optional sign: the longest prefix of
decimal digits; `none` (NaN) when there is no digit. -/
def parseIntBody (sign : Int) (cs : List Char) : Option Int :=
  let ds := cs.takeWhile Char.isDigit
  if ds = [] then none else some (sign * digitsVal ds)

/-- JavaScript `parseInt(s, 10)`: skip leading whitespace, read an optional
sign, then the longest prefix of decimal digits; `none` models NaN.  (Values
beyond 2^53 lose precision in JavaScript; sign and zeroness, which is all the
driver relies on, are unaffected.) -/
def parseInt10 (s : String) : Option Int :=
  let cs := s.toList.dropWhile fun c =>
    c == ' ' || c == '\t' || c == '\n' || c == '\r' || c == '\x0b' || c == '\x0c'
  match cs with
  | '-' :: rest => parseIntBody (-1) rest
  | '+' :: rest => parseIntBody 1 rest
  | rest => parseIntBody 1 rest

/-- The `ticksPerFrame` getter (lines 124–126):
`parseInt(this.getAttribute('ticks-per-frame'), 10) || 10`.
`attr = none` models an absent attribute: `getAttribute` returns `null` and
`parseInt(null, 10)` parses the string `"null"` (NaN).  `x || 10` yields `10`
exactly when `parseInt` produced NaN or (-)0, and `x` otherwise. -/
def ticksPerFrame (attr : Option String) : Int :=
  match parseInt10 (attr.getD "null") with
  | none => 10
  | some n => if n = 0 then 10 else n

/-- The `for (let i = 0; i < tpf; i++) this._emulator.tick()` loop of `loop()`
(lines 176–178): the emulator calls it performs, starting from counter `i`. -/
def forLoopTicks (i tpf : Int) : List EmuCall :=
  if i < tpf then EmuCall.tick :: forLoopTicks (i + 1) tpf else []
termination_by (tpf - i).toNat
decreasing_by
  simp_wf
  omega

/-- The emulator calls performed by `renderGfx()` (lines 142–148): a single
`this._emulator.gfx()` read at line 143 builds the frame's framebuffer view;
the subsequent cell painting only touches the canvas. -/
def renderGfxEmuCalls : List EmuCall := [EmuCall.gfx]

/-- The emulator calls of one `loop()` frame (lines 175–181): the tick
for-loop, then the single framebuffer read of `renderGfx()`.
(`requestAnimationFrame` schedules the next frame and is not an emulator
call.) -/
def loopFrameCalls (tpf : Int) : List EmuCall :=
  forLoopTicks 0 tpf ++ renderGfxEmuCalls

theorem forLoopTicks_eq (i tpf : Int) :
    forLoopTicks i tpf = List.replicate (tpf - i).toNat EmuCall.tick := by
  generalize hn : (tpf - i).toNat = n
  induction n generalizing i with
  | zero =>
    rw [forLoopTicks]
    have : ¬ i < tpf := by omega
    simp [this]
  | succ m ih =>
    rw [forLoopTicks]
    have hlt : i < tpf := by omega
    have hm : (tpf - (i + 1)).toNat = m := by omega
    simp [hlt, ih (i + 1) hm, List.replicate_succ]

theorem loopFrameCalls_eq (tpf : Int) :
    loopFrameCalls tpf = List.replicate tpf.toNat EmuCall.tick ++ [EmuCall.gfx] := by
  unfold loopFrameCalls renderGfxEmuCalls
  rw [forLoopTicks_eq]
  norm_num

/-- `const WIDTH = 64` (line 53). -/
def WIDTH : Nat := 64

/-- `const HEIGHT = 32` (line 54). -/
def HEIGHT : Nat := 32

/-- `const SCALE = 10` (line 55). -/
def SCALE : Nat := 10

/-- `const EMPTY_COLOR = '#0A84A0'` (line 56), the background color. -/
def EMPTY_COLOR : String := "#0A84A0"

/-- `const FILL_COLOR = '#ffffff'` (line 57). -/
def FILL_COLOR : String := "#ffffff"

/-- `const getIndex = (row, col) => row * WIDTH + col` (line 59). -/
def getIndex (row col : Nat) : Nat := row * WIDTH + col

/-- One `ctx.fillRect(x, y, w, h)` call on the canvas together with the
`fillStyle` in force when it is issued. -/
structure Paint where
  x : Nat
  y : Nat
  w : Nat
  h : Nat
  color : String
deriving DecidableEq

/-- The rectangle painted for cell `(row, col)` (lines 157–162):
`fillRect(col * (SCALE + 1) + 1, row * (SCALE + 1) + 1, SCALE, SCALE)`. -/
def cellRect (row col : Nat) (color : String) : Paint :=
  { x := col * (SCALE + 1) + 1
    y := row * (SCALE + 1) + 1
    w := SCALE
    h := SCALE
    color := color }

/-- The inner `for (let col = 0; col < WIDTH; col++)` loop of
`renderCellsByCond` (lines 153–163) for a fixed `row`, run for the first `n`
columns: each column is skipped (`continue`) when `cond row col` holds and
painted with `color` otherwise, in increasing column order. -/
def renderRow (cond : Nat → Nat → Bool) (color : String) (row : Nat) : Nat → List Paint
  | 0 => []
  | n + 1 =>
    renderRow cond color row n ++ (if cond row n then [] else [cellRect row n color])

/-- The outer `for (let row = 0; row < HEIGHT; row++)` loop of
`renderCellsByCond` (lines 152–164), run for the first `m` rows. -/
def renderRows (cond : Nat → Nat → Bool) (color : String) : Nat → List Paint
  | 0 => []
  | m + 1 => renderRows cond color m ++ renderRow cond color m WIDTH

/-- `renderCellsByCond(gfx, fillStyle, conditionCallback)` (lines 150–165):
sets `fillStyle` and paints every cell of the 32×64 grid whose condition
callback is false. -/
def renderCellsByCond (fillStyle : String) (cond : Nat → Nat → Bool) : List Paint :=
  renderRows cond fillStyle HEIGHT

/-- `renderFilledCells` (lines 167–169): paints with `FILL_COLOR`, skipping a
cell when `!gfx[getIndex(row, col)]`, i.e. when its byte is zero. -/
def renderFilledCells (gfx : Nat → Nat) : List Paint :=
  renderCellsByCond FILL_COLOR fun row col => gfx (getIndex row col) == 0

/-- `renderEmptyCells` (lines 171–173): paints with `EMPTY_COLOR`, skipping a
cell when `gfx[getIndex(row, col)]` is truthy, i.e. when its byte is nonzero. -/
def renderEmptyCells (gfx : Nat → Nat) : List Paint :=
  renderCellsByCond EMPTY_COLOR fun row col => !(gfx (getIndex row col) == 0)

/-- `renderGfx()` (lines 142–148): reads the framebuffer view once, paints the
filled cells, then the empty cells.  The source only ever reads `gfx`, so the
framebuffer passes through unchanged; the pair records (canvas paint trace,
framebuffer after the call). -/
def renderGfx (gfx : Nat → Nat) : List Paint × (Nat → Nat) :=
  (renderFilledCells gfx ++ renderEmptyCells gfx, gfx)

/-- The painted rectangles that target cell `(row, col)`: those whose origin
is the cell's origin `(col * (SCALE + 1) + 1, row * (SCALE + 1) + 1)`. -/
def atCell (row col : Nat) (p : Paint) : Bool :=
  p.x == col * (SCALE + 1) + 1 && p.y == row * (SCALE + 1) + 1

theorem atCell_cellRect (row col row' col' : Nat) (color : String) :
    atCell row col (cellRect row' col' color) = (decide (row' = row) && decide (col' = col)) := by
  simp only [atCell, cellRect, SCALE]
  by_cases hr : row' = row <;> by_cases hc : col' = col
  · simp [hr, hc]
  · have h1 : ¬ (col' * (10 + 1) + 1 = col * (10 + 1) + 1) := by omega
    simp [hr, hc, h1]
  · have h1 : ¬ (row' * (10 + 1) + 1 = row * (10 + 1) + 1) := by omega
    simp [hr, hc, h1]
  · have h1 : ¬ (col' * (10 + 1) + 1 = col * (10 + 1) + 1) := by omega
    simp [hr, hc, h1]

theorem renderRow_filter (cond : Nat → Nat → Bool) (color : String)
    (row col row' : Nat) (n : Nat) :
    (renderRow cond color row' n).filter (atCell row col) =
      if row' = row ∧ col < n ∧ cond row col = false then [cellRect row col color] else [] := by
  induction n with
  | zero => simp [renderRow]
  | succ m ih =>
    rw [renderRow, List.filter_append, ih]
    have h2 : (if cond row' m then ([] : List Paint) else [cellRect row' m color]).filter
        (atCell row col) =
        if row' = row ∧ m = col ∧ cond row' m = false then [cellRect row' m color] else [] := by
      cases hcond : cond row' m <;>
        by_cases hr : row' = row <;>
        by_cases hm : m = col <;>
        simp [List.filter, atCell_cellRect, hcond, hr, hm]
    rw [h2]
    by_cases hr : row' = row
    · subst hr
      by_cases hm : m = col
      · subst hm
        have hnlt : ¬ m < m := by omega
        have hlt : m < m + 1 := by omega
        cases hcond : cond row' m <;> simp [hnlt, hlt, hcond]
      · have hiff : (col < m + 1) = (col < m) := by
          apply propext
          omega
        simp [hm, hiff]
    · simp [hr]

theorem renderRows_filter (cond : Nat → Nat → Bool) (color : String)
    (row col : Nat) (m : Nat) :
    (renderRows cond color m).filter (atCell row col) =
      if row < m ∧ col < WIDTH ∧ cond row col = false then [cellRect row col color] else [] := by
  induction m with
  | zero => simp [renderRows]
  | succ k ih =>
    rw [renderRows, List.filter_append, ih, renderRow_filter]
    by_cases hr : row = k
    · subst hr
      have : ¬ row < row := by omega
      by_cases hc : col < WIDTH <;> cases hcond : cond row col <;>
        simp [this, hc, hcond]
    · by_cases hlt : row < k
      · have h1 : row < k + 1 := by omega
        have h2 : ¬ k = row := by omega
        simp [hlt, h1, h2]
      · have h1 : ¬ row < k + 1 := by omega
        have h2 : ¬ k = row := by omega
        simp [hlt, h1, h2]

/-- `const KEYS_MAP = ...` (lines 227–243): the physical-to-logical key map.
JavaScript property access `KEYS_MAP[keyCode]` yields `undefined` for a
keyCode outside the object, modelled as `none`. -/
def keysMap (keyCode : Nat) : Option Nat :=
  match keyCode with
  | 49 => some 1
  | 50 => some 2
  | 51 => some 3
  | 81 => some 4
  | 87 => some 5
  | 69 => some 6
  | 65 => some 7
  | 83 => some 8
  | 68 => some 9
  | 90 => some 10
  | 67 => some 11
  | 52 => some 12
  | 82 => some 13
  | 70 => some 14
  | 86 => some 15
  | _ => none

/-- The `this.pressed` object of `Keyboard` (line 254): a property table whose
keys are the values of `KEYS_MAP[keyCode]` — a logical index `some k`, or
`none` for the `"undefined"` property written when the keyCode is unmapped.
An absent property reads as `undefined`, i.e. `false` under `Boolean`. -/
def KbState : Type := Option Nat → Bool

/-- `start_detection()` (lines 253–257): `this.pressed = {}` — every property
absent, every key released. -/
def kbInit : KbState := fun _ => false

/-- `handle_keydown(e)` (lines 259–261):
`this.pressed[KEYS_MAP[e.keyCode]] = true`.  The pair records the updated
`pressed` table and the list of calls the handler makes on the wasm
interpreter — the handler body touches only `this.pressed`, so that list is
empty. -/
def handle_keydown (s : KbState) (keyCode : Nat) : KbState × List EmuCall :=
  (fun k => if k = keysMap keyCode then true else s k, [])

/-- `handle_keyup(e)` (lines 263–265):
`this.pressed[KEYS_MAP[e.keyCode]] = false`; like `handle_keydown`, it makes
no call on the interpreter. -/
def handle_keyup (s : KbState) (keyCode : Nat) : KbState × List EmuCall :=
  (fun k => if k = keysMap keyCode then false else s k, [])

/-- `is_key_pressed(key)` (lines 267–269): `Boolean(this.pressed[key])`. -/
def is_key_pressed (s : KbState) (key : Nat) : Bool :=
  s (some key)

/-- One physical key event: its direction (`keydown` when `isDown`) and its
`keyCode`. -/
structure KbEvent where
  isDown : Bool
  code : Nat
deriving DecidableEq

/-- Dispatch of one DOM key event to the registered handler
(`keydown ↦ handle_keydown`, `keyup ↦ handle_keyup`, lines 255–256). -/
def applyEvent (s : KbState) (e : KbEvent) : KbState :=
  if e.isDown then (handle_keydown s e.code).1 else (handle_keyup s e.code).1

/-- The `pressed` table after a sequence of key events, oldest first. -/
def applyEvents (s : KbState) (es : List KbEvent) : KbState :=
  es.foldl applyEvent s

/-- The direction of the most recent event in `es` whose keyCode maps to
logical key `k`: `some true` for a keydown, `some false` for a keyup, `none`
when no event of `es` maps to `k`. -/
def lastMapped (k : Nat) : List KbEvent → Option Bool
  | [] => none
  | e :: es =>
    match lastMapped k es with
    | some b => some b
    | none => if keysMap e.code = some k then some e.isDown else none

theorem applyEvents_pressed (es : List KbEvent) (s : KbState) (k : Nat) :
    is_key_pressed (applyEvents s es) k =
      match lastMapped k es with
      | some b => b
      | none => is_key_pressed s k := by
  induction es generalizing s with
  | nil => rfl
  | cons e es ih =>
    show is_key_pressed (applyEvents (applyEvent s e) es) k = _
    rw [ih]
    cases hlast : lastMapped k es with
    | some b => simp [lastMapped, hlast]
    | none =>
      by_cases hmap : keysMap e.code = some k <;>
        cases hdown : e.isDown <;>
        simp [lastMapped, hlast, hmap, hdown, is_key_pressed, applyEvent,
          handle_keydown, handle_keyup, eq_comm]

theorem lastMapped_append_unmapped (k : Nat) (es : List KbEvent) (e : KbEvent)
    (h : keysMap e.code = none) : lastMapped k (es ++ [e]) = lastMapped k es := by
  induction es with
  | nil => simp [lastMapped, h]
  | cons e0 es ih => simp [lastMapped, ih]

/-- State of the `Audio` adapter (lines 271–296): `o` is `this.o`, the current
oscillator (`null` modelled as `none`), identified by its creation number;
`created` counts every oscillator ever produced by
`this.ctx.createOscillator()`, so that creating no second oscillator is
observable. -/
structure AudioState where
  o : Option Nat
  created : Nat
deriving DecidableEq

/-- The `Audio` constructor (lines 272–275): `this.o = null`, no oscillator
created yet. -/
def audioInit : AudioState := { o := none, created := 0 }

/-- `is_active()` (lines 293–295): `Boolean(this.o)`. -/
def audio_is_active (s : AudioState) : Bool := s.o.isSome

/-- `start()` (lines 277–284): when no tone is active, create a fresh
oscillator, connect it and start it; otherwise do nothing. -/
def audio_start (s : AudioState) : AudioState :=
  if audio_is_active s then s else { o := some s.created, created := s.created + 1 }

/-- `stop()` (lines 286–291): when a tone is active, stop the oscillator and
set `this.o = null`; otherwise do nothing. -/
def audio_stop (s : AudioState) : AudioState :=
  if audio_is_active s then { s with o := none } else s

/-- One call on the `Audio` adapter. -/
inductive ACall : Type
  | start : ACall
  | stop : ACall
deriving DecidableEq

/-- Apply one `Audio` call to the adapter state. -/
def applyACall (s : AudioState) (c : ACall) : AudioState :=
  match c with
  | ACall.start => audio_start s
  | ACall.stop => audio_stop s

/-- The adapter state after a sequence of `start`/`stop` calls, oldest
first. -/
def applyACalls (s : AudioState) (cs : List ACall) : AudioState :=
  cs.foldl applyACall s

/-- The most recent call of a call sequence, `none` for the empty sequence. -/
def lastACall : List ACall → Option ACall
  | [] => none
  | c :: cs => some ((lastACall cs).getD c)

theorem applyACalls_active (cs : List ACall) (s : AudioState) :
    audio_is_active (applyACalls s cs) =
      match lastACall cs with
      | some c => decide (c = ACall.start)
      | none => audio_is_active s := by
  induction cs generalizing s with
  | nil => rfl
  | cons c cs ih =>
    show audio_is_active (applyACalls (applyACall s c) cs) = _
    rw [ih]
    cases hlast : lastACall cs with
    | some c0 => simp [lastACall, hlast]
    | none =>
      cases c <;> cases ho : s.o <;>
        simp [lastACall, hlast, applyACall, audio_start, audio_stop, audio_is_active, ho]

/-- State of the `chip8-emulator` element that `uploadProgram` and `pause`
touch: the `started` attribute (via its getter/setter, lines 116–122), the
pending `requestAnimationFrame` id (line 92), and `_programLoaded`
(line 91). -/
structure DriverState where
  started : Bool
  animationId : Option Nat
  programLoaded : Bool
deriving DecidableEq

/-- The actions `uploadProgram` performs, in order: calls on the wasm emulator,
the canvas clear of line 208, and the `cancelAnimationFrame` of line 192. -/
inductive DriverAct : Type
  | emu (c : EmuCall) : DriverAct
  | clearCanvas : DriverAct
  | cancelAnimation : DriverAct
deriving DecidableEq

/-- `pause()` (lines 190–196): when started, cancel the scheduled animation
frame, null the id and clear `started`; otherwise do nothing.  Returns the new
state and the actions performed. -/
def pause (s : DriverState) : DriverState × List DriverAct :=
  if s.started then
    ({ s with started := false, animationId := none }, [DriverAct.cancelAnimation])
  else (s, [])

/-- `uploadProgram(evt)` (lines 206–222): synchronously `this._emulator.reset()`
(line 207), clear the canvas (line 208) and `this.pause()` (line 209); then the
`FileReader` `onload` callback builds `new Uint8Array(e.target.result)` — the
selected file's bytes unchanged — passes it to `this._emulator.load` and sets
`_programLoaded` (lines 215–219).  `file` is the selected file's byte
sequence; the result is the element state after the callback ran and the
ordered actions performed. -/
def uploadProgram (s : DriverState) (file : List Nat) : DriverState × List DriverAct :=
  let p := pause s
  ({ p.1 with programLoaded := true },
    [DriverAct.emu EmuCall.reset, DriverAct.clearCanvas] ++ p.2
      ++ [DriverAct.emu (EmuCall.load file)])

/-- Modelled from the spec: the wasm crate's `framebuffer_view()` is absent
from the JavaScript sources; per the spec it is a "read-only 2048-byte grid
(64×32, row-major, 0/1 per cell)" — a byte table whose entries within the
64×32 range hold 0 or 1. -/
structure FramebufferView where
  byteAt : Nat → Nat
  bit : ∀ i, i < WIDTH * HEIGHT → byteAt i ≤ 1

/-- An all-zero framebuffer view (the state after `CLS`/`reset`). -/
def fbZero : FramebufferView :=
  { byteAt := fun _ => 0, bit := fun _ _ => Nat.zero_le 1 }

/-- C1 counterexample: with the `ticks-per-frame` attribute set to `"-7"`,
the `ticksPerFrame` getter returns `-7` (`parseInt` yields `-7`, which is
truthy), yet the frame's for-loop executes zero ticks — so the loop does not
call `tick` exactly `ticksPerFrame` times on that frame. -/
theorem c1_counterexample :
    ¬ (((loopFrameCalls (ticksPerFrame (some "-7"))).count EmuCall.tick : Int) =
        ticksPerFrame (some "-7")) := by
  have h : ticksPerFrame (some "-7") = -7 := by decide
  rw [h, loopFrameCalls_eq]
  decide

/-- C1 (amended): every frame of the driver's loop calls the interpreter's
`tick` exactly `max(ticksPerFrame, 0)` times — which equals `ticksPerFrame`
whenever `ticksPerFrame` is nonnegative — and then requests exactly one
redraw, reading `framebuffer_view` once, after all ticks of the frame
complete. -/
theorem c1_frame_trace (tpf : Int) :
    loopFrameCalls tpf = List.replicate tpf.toNat EmuCall.tick ++ [EmuCall.gfx] ∧
    (loopFrameCalls tpf).count EmuCall.tick = tpf.toNat ∧
    (loopFrameCalls tpf).count EmuCall.gfx = 1 ∧
    (0 ≤ tpf → ((loopFrameCalls tpf).count EmuCall.tick : Int) = tpf) ∧
    (loopFrameCalls tpf).getLast? = some EmuCall.gfx := by
  rw [loopFrameCalls_eq]
  have htick : (List.replicate tpf.toNat EmuCall.tick ++ [EmuCall.gfx]).count EmuCall.tick
      = tpf.toNat := by
    simp [List.count_append]
  refine ⟨rfl, htick, ?_, ?_, ?_⟩
  · simp [List.count_append, List.count_replicate]
  · intro hnn
    rw [htick]
    omega
  · simp

/-- C1 witness: for three ticks per frame the frame's tick count is exactly
three. -/
theorem c1_frame_trace_witness :
    (0 : Int) ≤ 3 ∧ ((loopFrameCalls 3).count EmuCall.tick : Int) = 3 :=
  ⟨by decide, (c1_frame_trace 3).2.2.2.1 (by decide)⟩

/-- C2 counterexample: a frame of the driver's loop at the default
`ticksPerFrame` (absent attribute) contains no `decrement_timers` call at
all — the loop does not decrement the timers. -/
theorem c2_counterexample :
    EmuCall.decrementTimers ∉ loopFrameCalls (ticksPerFrame none) := by
  have h : ticksPerFrame none = 10 := by decide
  rw [h, loopFrameCalls_eq]
  decide

/-- C2 (amended): no frame of the driver's loop ever invokes
`decrement_timers`; a frame's emulator interaction consists solely of `tick`
calls and the one framebuffer read. -/
theorem c2_no_decrement (tpf : Int) :
    (loopFrameCalls tpf).count EmuCall.decrementTimers = 0 ∧
    ∀ c ∈ loopFrameCalls tpf, c = EmuCall.tick ∨ c = EmuCall.gfx := by
  rw [loopFrameCalls_eq]
  constructor
  · simp [List.count_append, List.count_replicate]
  · intro c hc
    rcases List.mem_append.mp hc with h | h
    · exact Or.inl (List.eq_of_mem_replicate h)
    · simp only [List.mem_singleton] at h
      exact Or.inr h

/-- C2 witness: a ten-tick frame contains no `decrement_timers` call. -/
theorem c2_witness : (loopFrameCalls 10).count EmuCall.decrementTimers = 0 :=
  (c2_no_decrement 10).1

/-- C3 counterexample: the keydown handler applied to a pressed `1` key
(keyCode 49) performs no call on the interpreter at all — in particular no
`set_key` call — and neither does the keyup handler. -/
theorem c3_counterexample :
    (handle_keydown kbInit 49).2 = [] ∧
    (handle_keyup kbInit 49).2 = [] ∧
    EmuCall.setKey 1 true ∉ (handle_keydown kbInit 49).2 :=
  ⟨rfl, rfl, by simp [handle_keydown]⟩

/-- C3 (amended): for every key press and release event the adapter records
the pressed/released state in its own `pressed` table at the `KEYS_MAP` index
of the event's keyCode, leaving every other entry unchanged, and it makes no
call on the interpreter — the interpreter reads key state through
`is_key_pressed` instead of receiving `set_key` calls. -/
theorem c3_pressed_map (s : KbState) (keyCode : Nat) :
    (handle_keydown s keyCode).2 = [] ∧
    (handle_keyup s keyCode).2 = [] ∧
    (handle_keydown s keyCode).1 (keysMap keyCode) = true ∧
    (handle_keyup s keyCode).1 (keysMap keyCode) = false ∧
    (∀ k, k ≠ keysMap keyCode → (handle_keydown s keyCode).1 k = s k) ∧
    (∀ k, k ≠ keysMap keyCode → (handle_keyup s keyCode).1 k = s k) := by
  refine ⟨rfl, rfl, by simp [handle_keydown], by simp [handle_keyup], ?_, ?_⟩ <;>
    intro k hk <;>
    simp [handle_keydown, handle_keyup, hk]

/-- C3 witness: pressing `W` (keyCode 87) marks logical key 5 pressed in the
adapter's own table. -/
theorem c3_witness : (handle_keydown kbInit 87).1 (keysMap 87) = true :=
  (c3_pressed_map kbInit 87).2.2.1

/-- C4: no physical keyCode is translated to logical key 0 — `KEYS_MAP`
covers exactly the logical indices 1 through 15 (the conventional layout
minus its `X ↦ 0` entry), not the full 16-key space. -/
theorem c4_key_zero_unmapped :
    (∀ keyCode, keysMap keyCode ≠ some 0) ∧
    [49, 50, 51, 81, 87, 69, 65, 83, 68, 90, 67, 52, 82, 70, 86].filterMap keysMap =
      [1, 2, 3, 4, 5, 6, 7, 8, 9, 10, 11, 12, 13, 14, 15] := by
  constructor
  · intro keyCode
    unfold keysMap
    split <;> simp
  · decide

/-- C5: during each render every one of the 64×32 cells receives exactly one
paint — the fill color when its framebuffer byte is nonzero and the empty
(background) color when it is zero — and the framebuffer passes through the
render unmodified. -/
theorem c5_paint_each_cell_once (gfx : Nat → Nat) (row col : Nat)
    (hrow : row < HEIGHT) (hcol : col < WIDTH) :
    (renderGfx gfx).1.filter (atCell row col) =
      [cellRect row col
        (if gfx (getIndex row col) == 0 then EMPTY_COLOR else FILL_COLOR)] ∧
    (renderGfx gfx).2 = gfx := by
  refine ⟨?_, rfl⟩
  show (renderFilledCells gfx ++ renderEmptyCells gfx).filter (atCell row col) = _
  rw [List.filter_append]
  unfold renderFilledCells renderEmptyCells renderCellsByCond
  rw [renderRows_filter, renderRows_filter]
  cases hb : gfx (getIndex row col) == 0 <;> simp [hrow, hcol, hb]

/-- A sample framebuffer with a single lit pixel at cell (2, 3)
(index 2 × 64 + 3 = 131). -/
def gfxSample : Nat → Nat := fun i => if i = 131 then 1 else 0

/-- C5 witness: on the sample framebuffer, cell (2, 3) is painted exactly once
and the grid is unchanged. -/
theorem c5_witness :
    2 < HEIGHT ∧ 3 < WIDTH ∧
    ((renderGfx gfxSample).1.filter (atCell 2 3) =
      [cellRect 2 3
        (if gfxSample (getIndex 2 3) == 0 then EMPTY_COLOR else FILL_COLOR)] ∧
     (renderGfx gfxSample).2 = gfxSample) :=
  ⟨by decide, by decide, c5_paint_each_cell_once gfxSample 2 3 (by decide) (by decide)⟩

/-- C6: the framebuffer view consumed by the renderer is exactly
WIDTH × HEIGHT = 2048 bytes, cell (row, col) lives at row-major index
`getIndex row col = row * 64 + col`, that index is within the view, and —
per the spec's contract for the wasm `framebuffer_view` — the byte there is
0 or 1. -/
theorem c6_view_shape (v : FramebufferView) (row col : Nat)
    (hrow : row < HEIGHT) (hcol : col < WIDTH) :
    WIDTH * HEIGHT = 2048 ∧
    getIndex row col = row * 64 + col ∧
    getIndex row col < WIDTH * HEIGHT ∧
    (v.byteAt (getIndex row col) = 0 ∨ v.byteAt (getIndex row col) = 1) := by
  have h1 : row < 32 := hrow
  have h2 : col < 64 := hcol
  have hidx : getIndex row col < WIDTH * HEIGHT := by
    show row * 64 + col < 2048
    omega
  have hb := v.bit (getIndex row col) hidx
  exact ⟨rfl, rfl, hidx, by omega⟩

/-- C6 witness: on the all-zero view, cell (1, 2) sits at index 66 inside the
2048-byte grid and holds a 0/1 byte. -/
theorem c6_witness :
    1 < HEIGHT ∧ 2 < WIDTH ∧
    (WIDTH * HEIGHT = 2048 ∧ getIndex 1 2 = 1 * 64 + 2 ∧
      getIndex 1 2 < WIDTH * HEIGHT ∧
      (fbZero.byteAt (getIndex 1 2) = 0 ∨ fbZero.byteAt (getIndex 1 2) = 1)) :=
  ⟨by decide, by decide, c6_view_shape fbZero 1 2 (by decide) (by decide)⟩

/-- C7: on every file-selected event the driver first calls `reset` (the very
first action), ends up with the render loop paused (`started = false`), and
the last action is the `load` of the selected file's bytes; moreover any
`load` issued carries exactly the file's byte sequence, verbatim. -/
theorem c7_reset_then_load (s : DriverState) (file : List Nat) :
    (uploadProgram s file).2.head? = some (DriverAct.emu EmuCall.reset) ∧
    (uploadProgram s file).2.getLast? = some (DriverAct.emu (EmuCall.load file)) ∧
    (uploadProgram s file).1.started = false ∧
    (uploadProgram s file).1.programLoaded = true ∧
    (∀ rom, DriverAct.emu (EmuCall.load rom) ∈ (uploadProgram s file).2 → rom = file) := by
  cases hs : s.started <;>
    refine ⟨?_, ?_, ?_, ?_, ?_⟩ <;>
    simp [uploadProgram, pause, hs]

/-- A sample element state: running, with a scheduled animation frame and no
program loaded yet. -/
def driverSample : DriverState :=
  { started := true, animationId := some 7, programLoaded := false }

/-- C7 witness: uploading the three-byte file `[1, 2, 3]` on the sample state
starts with `reset`, ends with `load [1, 2, 3]`, and pauses the loop. -/
theorem c7_witness :
    (uploadProgram driverSample [1, 2, 3]).2.head? = some (DriverAct.emu EmuCall.reset) ∧
    (uploadProgram driverSample [1, 2, 3]).2.getLast? =
      some (DriverAct.emu (EmuCall.load [1, 2, 3])) ∧
    (uploadProgram driverSample [1, 2, 3]).1.started = false :=
  ⟨(c7_reset_then_load driverSample [1, 2, 3]).1,
   (c7_reset_then_load driverSample [1, 2, 3]).2.1,
   (c7_reset_then_load driverSample [1, 2, 3]).2.2.1⟩

/-- C8 counterexample: for the attribute value `"-3"` the getter returns the
negative integer `-3` — not a positive integer — and the frame then executes
zero ticks. -/
theorem c8_counterexample :
    ticksPerFrame (some "-3") = -3 ∧
    ¬ (0 < ticksPerFrame (some "-3")) ∧
    (loopFrameCalls (ticksPerFrame (some "-3"))).count EmuCall.tick = 0 := by
  have h : ticksPerFrame (some "-3") = -3 := by decide
  refine ⟨h, by rw [h]; decide, ?_⟩
  rw [h, loopFrameCalls_eq]
  decide

/-- C8 (amended): for every value of the ticks-per-frame attribute the getter
returns a nonzero integer — the parsed base-10 integer when the parse yields a
nonzero number (which may be negative), and 10 otherwise (absent attribute,
non-numeric value, or "0"). -/
theorem c8_getter_value (attr : Option String) :
    ticksPerFrame attr ≠ 0 ∧
    (parseInt10 (attr.getD "null") = none → ticksPerFrame attr = 10) ∧
    (parseInt10 (attr.getD "null") = some 0 → ticksPerFrame attr = 10) ∧
    (∀ n : Int, n ≠ 0 → parseInt10 (attr.getD "null") = some n → ticksPerFrame attr = n) := by
  cases hp : parseInt10 (attr.getD "null") with
  | none =>
    refine ⟨?_, ?_, ?_, ?_⟩ <;> simp [ticksPerFrame, hp]
  | some n =>
    rcases eq_or_ne n 0 with hn | hn
    · subst hn
      refine ⟨by simp [ticksPerFrame, hp], by simp [ticksPerFrame, hp],
        by simp [ticksPerFrame, hp], ?_⟩
      intro m hm0 hsome
      exact absurd (Option.some.inj hsome).symm hm0
    · refine ⟨?_, ?_, ?_, ?_⟩ <;> simp [ticksPerFrame, hp, hn]

/-- C8 witness: the attribute `"7"` parses to the nonzero 7 and the getter
returns 7. -/
theorem c8_witness : ticksPerFrame (some "7") = 7 :=
  (c8_getter_value (some "7")).2.2.2 7 (by decide) (by decide)

/-- C9: after `start_detection` every logical key reads as released until an
event mapping to it arrives; thereafter `is_key_pressed k` reports exactly
whether the most recent keydown/keyup event whose keyCode maps to `k` was a
keydown, and an event whose keyCode is outside `KEYS_MAP` never changes the
reported state of any logical key. -/
theorem c9_keyboard_reflects_last_event (es : List KbEvent) (e : KbEvent) (k : Nat) :
    is_key_pressed (applyEvents kbInit es) k = (lastMapped k es).getD false ∧
    (keysMap e.code = none →
      is_key_pressed (applyEvents kbInit (es ++ [e])) k =
        is_key_pressed (applyEvents kbInit es) k) := by
  constructor
  · rw [applyEvents_pressed]
    cases h : lastMapped k es <;> simp [h, kbInit, is_key_pressed]
  · intro hu
    rw [applyEvents_pressed, applyEvents_pressed, lastMapped_append_unmapped k es e hu]

/-- C9 witness: after pressing `W` (keyCode 87, logical key 5), a keydown with
the unmapped keyCode 999 leaves key 5's reported state unchanged. -/
theorem c9_witness :
    keysMap 999 = none ∧
    is_key_pressed (applyEvents kbInit ([⟨true, 87⟩] ++ [⟨true, 999⟩])) 5 =
      is_key_pressed (applyEvents kbInit [⟨true, 87⟩]) 5 :=
  ⟨by decide, (c9_keyboard_reflects_last_event [⟨true, 87⟩] ⟨true, 999⟩ 5).2 (by decide)⟩

/-- C10: for every sequence of `Audio.start`/`Audio.stop` calls, `is_active`
holds exactly when the most recent call was `start`; both calls are
idempotent, and `start` on an already-active tone is a complete no-op — in
particular it creates no second oscillator. -/
theorem c10_audio_toggle :
    (∀ cs : List ACall,
      audio_is_active (applyACalls audioInit cs) = true ↔ lastACall cs = some ACall.start) ∧
    (∀ s : AudioState, audio_start (audio_start s) = audio_start s) ∧
    (∀ s : AudioState, audio_stop (audio_stop s) = audio_stop s) ∧
    (∀ s : AudioState, audio_is_active s = true → audio_start s = s) ∧
    (∀ s : AudioState, audio_is_active s = false → audio_stop s = s) := by
  refine ⟨?_, ?_, ?_, ?_, ?_⟩
  · intro cs
    rw [applyACalls_active]
    cases h : lastACall cs with
    | none => simp [audioInit, audio_is_active]
    | some c => cases c <;> simp
  · intro s
    cases ho : s.o <;> simp [audio_start, audio_is_active, ho]
  · intro s
    cases ho : s.o <;> simp [audio_stop, audio_is_active, ho]
  · intro s h
    simp [audio_start, h]
  · intro s h
    simp [audio_stop, h]

/-- C10 witness: after the call sequence start, stop, start a tone is
active. -/
theorem c10_witness :
    audio_is_active (applyACalls audioInit [ACall.start, ACall.stop, ACall.start]) = true :=
  (c10_audio_toggle.1 [ACall.start, ACall.stop, ACall.start]).mpr (by decide)
